import Mathlib

/-!
# A verification model of libpca (spinlockirqsave/libpca-1.2.11)

The repository ships the unit tests (`test_pca.cpp`, `test_utils.cpp`), an
example program and build scripts; the implementation of `stats::pca` and
`stats::utils` itself is not among the provided sources.  The definitions
below therefore model the engine and the matrix utilities from the
specification, faithful to its words, and — where the unit tests pin down
concrete behaviour at concrete inputs — faithful to those tests.

Doubles are modelled as exact rationals (`ℚ`); the one routine whose result
is irrational (`compute_column_rms`) is modelled over `ℝ`.  Floating
tolerances are modelled either exactly (exact equality implies equality
within any tolerance) or by the explicit rational bound `2⁻²³`
(`std::numeric_limits<float>::epsilon()`, the `utils::feps` used by the
tests, whose `is_approx_equal` checks `|a − b| < eps`).
-/

namespace Libpca

/-- A numeric matrix with `r` rows and `c` columns, entries exact rationals. -/
abbrev Mat (r c : Nat) := Matrix (Fin r) (Fin c) ℚ

/-- The error taxonomy of §7 of the specification. -/
inductive PcaError where
  | invalidConfiguration
  | dimensionMismatch
  | indexOutOfRange
  | unsupportedOption
  | insufficientData
  | degenerateColumn
  | notSolved
  | missingFile
  | fileAccessError
  deriving DecidableEq, Repr

/-- Modelled from the spec: `make_covariance_matrix` builds
`C = (1/(num_records−1)) · Xᵗ·X` over its input matrix as given (§4.2 step 2);
the unit test `test_utils::test_make_covariance_matrix` pins
`make_covariance_matrix(data) = 1/2 · dataᵗ·data` for a 3-row input. -/
def make_covariance_matrix {r c : Nat} (M : Mat r c) : Matrix (Fin c) (Fin c) ℚ :=
  ((r : ℚ) - 1)⁻¹ • (M.transpose * M)

/-- Modelled from the spec: `compute_column_means` returns each column's mean. -/
def compute_column_means {r c : Nat} (M : Mat r c) : Fin c → ℚ :=
  fun j => (∑ i, M i j) / (r : ℚ)

/-- Modelled from the spec: `remove_column_means` subtracts the given mean
from every entry of the corresponding column. -/
def remove_column_means {r c : Nat} (M : Mat r c) (means : Fin c → ℚ) : Mat r c :=
  fun i j => M i j - means j

/-- Modelled from the spec: `make_shuffled_matrix` resamples every column
independently with replacement (§4.2 step 7, §4.4): entry `(i, j)` of the
result is the entry of column `j` of the input at a generator-drawn row
index.  The generator's draws are the explicit argument `rng`. -/
def make_shuffled_matrix {r c : Nat} (M : Mat r c) (rng : Fin r → Fin c → Fin r) : Mat r c :=
  fun i j => M (rng i j) j

/-- Modelled from the spec: `compute_column_rms` returns, per column, the
root of the column's sum of squares over the sample divisor `n − 1`; the
unit test `test_utils::test_compute_column_rms` pins the values
`{√7, √38.5, √97}` on the 3×3 matrix with columns `(1,2,3)`, `(4,5,6)`,
`(7,8,9)`, which forces the divisor `n − 1`. -/
noncomputable def compute_column_rms {r c : Nat} (M : Matrix (Fin r) (Fin c) ℝ) : Fin c → ℝ :=
  fun j => Real.sqrt ((∑ i, (M i j) ^ 2) / ((r : ℝ) - 1))

/-- The conventional root mean square (divisor `n`), for contrast with
`compute_column_rms`. -/
noncomputable def conventional_column_rms {r c : Nat} (M : Matrix (Fin r) (Fin c) ℝ) : Fin c → ℝ :=
  fun j => Real.sqrt ((∑ i, (M i j) ^ 2) / (r : ℝ))

/-- The public state of the analysis engine `stats::pca` (§3 of the spec):
configuration, the accumulated data matrix, and the Analysis State produced
by `solve`/`load`.  Modelled from the spec. -/
structure pca where
  num_variables : Nat
  records : List (List ℚ)
  do_normalize : Bool
  do_bootstrap : Bool
  num_bootstraps : Nat
  bootstrap_seed : Nat
  solver : String
  solved : Bool
  mean : List ℚ
  sigma : List ℚ
  eigenvalues : List ℚ
  eigenvectors : List (List ℚ)
  principal : List (List ℚ)
  energy : ℚ
  eigval_boot : List (List ℚ)
  energy_boot : List ℚ
  deriving DecidableEq, Repr

/-- A freshly constructed engine with `n` variables (`stats::pca pca(n)`). -/
def pca.init (n : Nat) : pca :=
  { num_variables := n, records := [], do_normalize := false, do_bootstrap := false,
    num_bootstraps := 30, bootstrap_seed := 1, solver := "dc", solved := false,
    mean := [], sigma := [], eigenvalues := [], eigenvectors := [], principal := [],
    energy := 0, eigval_boot := [], energy_boot := [] }

/-- Modelled from the spec: `add_record(r)` fails with DimensionMismatch if
`len(r) != num_variables`, else appends `r` as a new row (§4.1); the unit
test `test_pca::test_add_record` pins both behaviours.  A failing call
returns an error and no new engine, so the caller's engine is unchanged. -/
def add_record (e : pca) (r : List ℚ) : Except PcaError pca :=
  if r.length ≠ e.num_variables then .error .dimensionMismatch
  else .ok { e with records := e.records ++ [r] }

/-- `get_num_records()`. -/
def get_num_records (e : pca) : Nat := e.records.length

/-- Modelled from the spec and corrected by the tests: `solve`'s
data-sufficiency check.  The spec's §4.2 states the precondition
`num_records > num_variables`, but the tests under `src/test` contradict it:
`test_pca::test_save`, `test_eigenvectors`, `test_eigenvalues` and others
all call `solve()` successfully with 3 records and `num_variables = 4`,
while `test_pca::test_solve_throws` shows `solve` throwing with a single
record.  The check consistent with all tests is `num_records ≥ 2`. -/
def solve_check (e : pca) : Except PcaError Unit :=
  if e.records.length < 2 then .error .insufficientData else .ok ()

/-- Modelled from the spec and corrected by the tests: the set of file
names written by `save(prefix)` (§6).  `test_pca::test_save` solves an
engine with the normalize flag off (and bootstrap on) and asserts that all
nine artifacts exist, `test.sigma` included — so `<prefix>.sigma` is written
unconditionally, not only when normalization is enabled. -/
def save_file_names (pre : String) (e : pca) : List String :=
  [pre ++ ".pca", pre ++ ".mean", pre ++ ".sigma", pre ++ ".eigval",
   pre ++ ".eigvec", pre ++ ".princomp", pre ++ ".energy"]
  ++ (if e.do_bootstrap then [pre ++ ".eigvalboot", pre ++ ".energyboot"] else [])

/-- Modelled from the spec: `to_principal_space(record)` returns
`(record − column_means) [/ column_sigmas if normalized] · eigenvectors`
(§4.3). -/
def to_principal_space {n : Nat} (V : Matrix (Fin n) (Fin n) ℚ)
    (means sigmas : Fin n → ℚ) (normalize : Bool) (r : Fin n → ℚ) : Fin n → ℚ :=
  Matrix.vecMul (fun i => if normalize then (r i - means i) / sigmas i else r i - means i) V

/-- Modelled from the spec: `to_variable_space(principal_record)` is the
inverse transform `principal_record · eigenvectorsᵗ [· column_sigmas]
+ column_means` (§4.3), using all `num_variables` eigenvector columns. -/
def to_variable_space {n : Nat} (V : Matrix (Fin n) (Fin n) ℚ)
    (means sigmas : Fin n → ℚ) (normalize : Bool) (p : Fin n → ℚ) : Fin n → ℚ :=
  fun i => (Matrix.vecMul p V.transpose) i * (if normalize then sigmas i else 1) + means i

/-- Modelled from the spec: `check_projection_accurate()` round-trips every
stored record through `to_principal_space`/`to_variable_space` and returns
the fraction of records whose reconstruction matches the original (1.0 when
all do); the floating tolerance is modelled as exact equality over `ℚ`. -/
def check_projection_accurate {n : Nat} (V : Matrix (Fin n) (Fin n) ℚ)
    (means sigmas : Fin n → ℚ) (normalize : Bool) (records : List (Fin n → ℚ)) : ℚ :=
  ((records.filter (fun r =>
      decide (to_variable_space V means sigmas normalize
        (to_principal_space V means sigmas normalize r) = r))).length : ℚ) /
    (records.length : ℚ)

/-- The engine built by `test_pca::add_records`: `num_variables = 4` with the
three records `{1,2.5,42,7}`, `{3,4.2,90,7}`, `{456,444,0,7}`. -/
def testEngine : pca :=
  { pca.init 4 with
    records := [[1, 5/2, 42, 7], [3, 21/5, 90, 7], [456, 444, 0, 7]] }

/-- The engine of `test_pca::test_solve_throws`: one record only. -/
def oneRecordEngine : pca :=
  { pca.init 4 with records := [[1, 5/2, 42, 7]] }

/-- A concrete solved engine (bootstrap on, a nonempty mean vector and a
nonzero energy), for instantiating the save/load round trip. -/
def solvedEngine : pca :=
  { testEngine with
    solved := true
    do_bootstrap := true
    mean := [1, 2]
    energy := 5 }

/-- The 3×3 matrix of `test_utils::test_make_covariance_matrix` and
`test_utils::test_compute_column_rms`: the column-major buffer
`{1,…,9}` gives columns `(1,2,3)`, `(4,5,6)`, `(7,8,9)`. -/
def utilsTestMatrix : Mat 3 3 :=
  Matrix.of ![![1, 4, 7], ![2, 5, 8], ![3, 6, 9]]

/-- The input matrix of `test_utils::test_make_shuffled_matrix`: columns
`(4,1,1)`, `(2,5,2)`, `(3,3,6)`. -/
def shuffleTestInput : Mat 3 3 :=
  Matrix.of ![![4, 2, 3], ![1, 5, 3], ![1, 2, 6]]

/-- The output matrix that `test_utils::test_make_shuffled_matrix` expects
under seed 1: columns `(1,1,4)`, `(5,2,5)`, `(3,3,3)`. -/
def shuffleTestExpected : Mat 3 3 :=
  Matrix.of ![![1, 5, 3], ![1, 2, 3], ![4, 5, 3]]

/-- The real-valued copy of `utilsTestMatrix`, for the RMS routine. -/
noncomputable def rmsTestMatrix : Matrix (Fin 3) (Fin 3) ℝ :=
  Matrix.of ![![1, 4, 7], ![2, 5, 8], ![3, 6, 9]]

/-- Reversing the column order of a square matrix: §4.2 step 4 turns the
backend's ascending eigenpairs into descending order. -/
def reverse_columns {n : Nat} (V : Matrix (Fin n) (Fin n) ℚ) :
    Matrix (Fin n) (Fin n) ℚ :=
  fun i j => V i j.rev

/-- Modelled from the spec: the first index attaining the maximal absolute
value of a vector — the deterministic tie-break of §4.2 step 4 (first entry
reaching the maximum absolute value, in index order). -/
def dominant_index {n : Nat} (v : Fin (n + 1) → ℚ) : Fin (n + 1) :=
  (List.finRange (n + 1)).foldl (fun acc i => if |v acc| < |v i| then i else acc) 0

/-- The factor `±1` that makes a column's dominant-magnitude entry
positive. -/
def column_sign {n : Nat} (v : Fin (n + 1) → ℚ) : ℚ :=
  if v (dominant_index v) < 0 then -1 else 1

/-- Modelled from the spec and `test_utils::test_enforce_positive_sign_by_column`:
flip each column whose dominant-magnitude entry is negative. -/
def enforce_positive_sign_by_column {n : Nat}
    (V : Matrix (Fin (n + 1)) (Fin (n + 1)) ℚ) :
    Matrix (Fin (n + 1)) (Fin (n + 1)) ℚ :=
  fun i j => column_sign (fun k => V k j) * V i j

/-- The numeric backend's eigendecomposition output (§4.2 step 3):
eigenvalues in ascending numeric order with the matching eigenvector
columns. -/
structure EigResult (n : Nat) where
  eigval : Fin n → ℚ
  eigvec : Matrix (Fin n) (Fin n) ℚ

/-- Modelled from the spec (§4.2 steps 4–6) and `test_pca::test_eigenvalues`
(whose expected eigenvalues sum to 1): the stored eigenvalue sequence is the
backend's ascending sequence reversed to descending order and normalized by
its sum (the un-normalized sum being the energy). -/
def derive_eigenvalues {n : Nat} (b : EigResult n) : Fin n → ℚ :=
  fun j => b.eigval j.rev / ∑ k : Fin n, b.eigval k.rev

/-- Modelled from the spec (§4.2 step 4): the stored eigenvector matrix is
the backend's, columns reversed to match the descending eigenvalues and
sign-canonicalized. -/
def derive_eigenvectors {n : Nat} (b : EigResult (n + 1)) :
    Matrix (Fin (n + 1)) (Fin (n + 1)) ℚ :=
  enforce_positive_sign_by_column (reverse_columns b.eigvec)

/-- Modelled from the spec: `check_eigenvectors_orthogonal()` scores the
fraction of eigenvector pairs whose dot product matches `δᵢⱼ` (1.0 when all
do); the floating tolerance is modelled as exact equality over `ℚ`. -/
def check_eigenvectors_orthogonal {n : Nat} (V : Matrix (Fin n) (Fin n) ℚ) : ℚ :=
  (((Finset.univ : Finset (Fin n × Fin n)).filter
      (fun p => (∑ i, V i p.1 * V i p.2) = if p.1 = p.2 then 1 else 0)).card : ℚ) /
    ((Finset.univ : Finset (Fin n × Fin n)).card : ℚ)

/-- The scalar configuration captured by the `<prefix>.pca` manifest (§6). -/
structure Config where
  num_variables : Nat
  do_normalize : Bool
  solver : String
  do_bootstrap : Bool
  num_bootstraps : Nat
  bootstrap_seed : Nat
  deriving DecidableEq, Repr

/-- The content of one persisted artifact. -/
inductive Artifact where
  | vec : List ℚ → Artifact
  | mat : List (List ℚ) → Artifact
  | num : ℚ → Artifact
  | manifest : Config → Artifact
  deriving DecidableEq, Repr

/-- Modelled from the spec (§6) and `test_pca::test_save`: `save(prefix)`
writes the named artifacts, here keyed by their file-name extension
(the common `<prefix>` is a bijective renaming of the keys and is
abstracted away; `save_file_names` above gives the full names).
`.sigma` is written unconditionally — `test_pca::test_save` asserts its
existence with the normalize flag off — and the bootstrap artifacts only
when bootstrap is enabled. -/
def save (e : pca) : List (String × Artifact) :=
  [(".pca", .manifest ⟨e.num_variables, e.do_normalize, e.solver,
      e.do_bootstrap, e.num_bootstraps, e.bootstrap_seed⟩),
   (".mean", .vec e.mean),
   (".sigma", .vec e.sigma),
   (".eigval", .vec e.eigenvalues),
   (".eigvec", .mat e.eigenvectors),
   (".princomp", .mat e.principal),
   (".energy", .num e.energy)]
  ++ (if e.do_bootstrap then
        [(".eigvalboot", .mat e.eigval_boot), (".energyboot", .vec e.energy_boot)]
      else [])

/-- Looking an artifact up in the persisted set; a required artifact that
is absent fails with MissingFile (§6). -/
def findArtifact (files : List (String × Artifact)) (name : String) :
    Except PcaError Artifact :=
  match files.lookup name with
  | some a => .ok a
  | none => .error .missingFile

/-- An artifact read as a vector; wrong content fails like an unreadable
file (FileAccessError). -/
def Artifact.asVec : Artifact → Except PcaError (List ℚ)
  | .vec v => .ok v
  | _ => .error .fileAccessError

/-- An artifact read as a matrix. -/
def Artifact.asMat : Artifact → Except PcaError (List (List ℚ))
  | .mat m => .ok m
  | _ => .error .fileAccessError

/-- An artifact read as a scalar. -/
def Artifact.asNum : Artifact → Except PcaError ℚ
  | .num x => .ok x
  | _ => .error .fileAccessError

/-- An artifact read as the manifest. -/
def Artifact.asManifest : Artifact → Except PcaError Config
  | .manifest c => .ok c
  | _ => .error .fileAccessError

/-- Modelled from the spec (§6): `load(prefix)` reads the manifest, then
every required artifact (the bootstrap artifacts only when the manifest's
bootstrap flag is set), failing with MissingFile when one is absent, and
produces a freshly constructed engine in solved state (the data records are
not persisted). -/
def load (files : List (String × Artifact)) : Except PcaError pca := do
  let cfg ← findArtifact files ".pca" >>= Artifact.asManifest
  let mean ← findArtifact files ".mean" >>= Artifact.asVec
  let sigma ← findArtifact files ".sigma" >>= Artifact.asVec
  let eigval ← findArtifact files ".eigval" >>= Artifact.asVec
  let eigvec ← findArtifact files ".eigvec" >>= Artifact.asMat
  let princomp ← findArtifact files ".princomp" >>= Artifact.asMat
  let energy ← findArtifact files ".energy" >>= Artifact.asNum
  let eigvalboot ← if cfg.do_bootstrap then
      findArtifact files ".eigvalboot" >>= Artifact.asMat
    else pure []
  let energyboot ← if cfg.do_bootstrap then
      findArtifact files ".energyboot" >>= Artifact.asVec
    else pure []
  return { num_variables := cfg.num_variables, records := [],
           do_normalize := cfg.do_normalize, do_bootstrap := cfg.do_bootstrap,
           num_bootstraps := cfg.num_bootstraps, bootstrap_seed := cfg.bootstrap_seed,
           solver := cfg.solver, solved := true,
           mean := mean, sigma := sigma, eigenvalues := eigval,
           eigenvectors := eigvec, principal := princomp, energy := energy,
           eigval_boot := eigvalboot, energy_boot := energyboot }

/-- The engine equality defined by the spec (§6): equality of every public
data-model field — configuration plus Analysis State (the bootstrap
sequences when bootstrap is on); the per-field tolerances are modelled as
exact equality, which any documented tolerance admits. -/
def pcaEqual (a b : pca) : Prop :=
  a.num_variables = b.num_variables ∧ a.do_normalize = b.do_normalize ∧
  a.solver = b.solver ∧ a.do_bootstrap = b.do_bootstrap ∧
  a.num_bootstraps = b.num_bootstraps ∧ a.bootstrap_seed = b.bootstrap_seed ∧
  a.mean = b.mean ∧ a.sigma = b.sigma ∧ a.eigenvalues = b.eigenvalues ∧
  a.eigenvectors = b.eigenvectors ∧ a.principal = b.principal ∧
  a.energy = b.energy ∧
  (a.do_bootstrap = true → a.eigval_boot = b.eigval_boot ∧ a.energy_boot = b.energy_boot)

/-- A concrete data matrix for instantiating the solve-spectrum theorem:
3 records over 2 variables, rows `(1,0)`, `(−1,0)`, `(0,0)` (already
centered), with covariance `[[1,0],[0,0]]`. -/
def witnessData : Mat 3 2 := Matrix.of ![![1, 0], ![-1, 0], ![0, 0]]

/-- The backend's eigendecomposition of `witnessData`'s covariance:
ascending eigenvalues `(0,1)` with eigenvector columns `e₂, e₁`. -/
def witnessEig : EigResult 2 :=
  ⟨![0, 1], Matrix.of ![![0, 1], ![1, 0]]⟩

/-- The data matrix of `test_pca::add_records` as a 3×4 matrix (records as
rows): `{1,2.5,42,7}`, `{3,4.2,90,7}`, `{456,444,0,7}`. -/
def testDataMatrix : Mat 3 4 :=
  Matrix.of ![![1, 5/2, 42, 7], ![3, 21/5, 90, 7], ![456, 444, 0, 7]]

/-- Modelled from the spec's concrete scenario (§8) and
`test_pca::test_energy`: the energy reported by `solve` is the total
variance of the processed data — the trace of the covariance matrix of the
centered data matrix, `(Σ centered²)/(num_records−1)`.  (§4.2 step 6's
phrase "sum of squared entries of X" does not match the spec's own §8 value
`135459.19666667`, which the unit test also pins; the model follows the
pinned value.) -/
def solve_energy {r c : Nat} (D : Mat r c) : ℚ :=
  ∑ j, make_covariance_matrix (remove_column_means D (compute_column_means D)) j j

/-- The centered test data matrix. -/
def centeredTestData : Mat 3 4 :=
  remove_column_means testDataMatrix (compute_column_means testDataMatrix)

/-- C7: for every record `r` with `len(r) ≠ num_variables`, `add_record`
fails with DimensionMismatch and produces no mutated engine (so the record
count is unchanged); for every record of the correct length, `add_record`
appends it and increments the record count by one. -/
theorem add_record_spec (e : pca) (r : List ℚ) :
    (r.length ≠ e.num_variables → add_record e r = .error .dimensionMismatch) ∧
    (r.length = e.num_variables →
      add_record e r = .ok { e with records := e.records ++ [r] } ∧
      ∀ e', add_record e r = .ok e' →
        e'.records = e.records ++ [r] ∧ get_num_records e' = get_num_records e + 1) := by
  constructor
  · intro h
    simp [add_record, h]
  · intro h
    have hok : add_record e r = .ok { e with records := e.records ++ [r] } := by
      simp [add_record, h]
    refine ⟨hok, ?_⟩
    intro e' he'
    rw [hok] at he'
    cases he'
    exact ⟨rfl, by simp [get_num_records]⟩

/-- Witness for C7 at the concrete data of `test_pca::test_add_record`:
a length-3 record is rejected by a 4-variable engine, a length-4 record is
appended. -/
theorem add_record_spec_witness :
    add_record (pca.init 4) [4, 8, 7] = .error .dimensionMismatch ∧
    ∀ e', add_record (pca.init 4) [1, 5/2, 42, 7] = .ok e' →
      e'.records = [] ++ [[1, 5/2, 42, 7]] ∧
        get_num_records e' = get_num_records (pca.init 4) + 1 := by
  constructor
  · exact (add_record_spec (pca.init 4) [4, 8, 7]).1 (by decide)
  · exact ((add_record_spec (pca.init 4) [1, 5/2, 42, 7]).2 (by decide)).2

/-- C1 counterexample: the claim "for every engine whose record count does
not strictly exceed `num_variables`, calling `solve` fails with
InsufficientData" is false on the engine of `test_pca::test_save` and
`test_pca::test_eigenvectors` (3 records, 4 variables), where `solve`
succeeds. -/
theorem solve_check_counterexample :
    get_num_records testEngine ≤ testEngine.num_variables ∧
    solve_check testEngine = .ok () := by
  constructor
  · decide
  · rfl

/-- C1 (amended): `solve`'s data-sufficiency check fails with
InsufficientData exactly when fewer than two records have been added;
in particular it succeeds on the test data with 3 records and 4
variables. -/
theorem solve_check_spec (e : pca) :
    (solve_check e = .error .insufficientData ↔ get_num_records e < 2) ∧
    (solve_check e = .ok () ↔ 2 ≤ get_num_records e) := by
  unfold solve_check get_num_records
  by_cases h : e.records.length < 2
  · simp [h]
  · simp [h]
    omega

/-- C2 counterexample: the claim "for every solved engine with the
normalize flag off, `save(prefix)` does not produce `<prefix>.sigma`" is
false on the engine of `test_pca::test_save` (normalize off, bootstrap on):
the produced file set contains `test.sigma`. -/
theorem save_sigma_counterexample :
    ({ testEngine with do_bootstrap := true, solved := true } : pca).do_normalize = false ∧
    "test.sigma" ∈ save_file_names "test" { testEngine with do_bootstrap := true, solved := true } := by
  constructor
  · rfl
  · decide

/-- C2 (amended): `save(prefix)` writes `<prefix>.sigma` unconditionally —
for every engine, whatever its normalize flag, the produced file set
contains `<prefix>.sigma`. -/
theorem save_sigma_always (pre : String) (e : pca) :
    (pre ++ ".sigma") ∈ save_file_names pre e := by
  unfold save_file_names
  simp

/-- C8: for every matrix `M` with `r ≥ 2` rows, `make_covariance_matrix M`
equals `(1/(r−1)) · Mᵗ·M` exactly, applied to the input as given (no
centering inside); on the unit test's 3×3 matrix this evaluates to
`1/2 · dataᵗ·data` as `test_utils::test_make_covariance_matrix` expects. -/
theorem make_covariance_matrix_spec {r c : Nat} (M : Mat r c) (_hr : 2 ≤ r) :
    make_covariance_matrix M = ((r : ℚ) - 1)⁻¹ • (M.transpose * M) ∧
    make_covariance_matrix utilsTestMatrix =
      Matrix.of ![![7, 16, 25], ![16, 77/2, 61], ![25, 61, 97]] := by
  refine ⟨rfl, ?_⟩
  ext i j
  fin_cases i <;> fin_cases j <;>
    simp [make_covariance_matrix, utilsTestMatrix, Matrix.mul_apply,
      Matrix.transpose_apply, Matrix.vecHead, Matrix.vecTail,
      Fin.sum_univ_three] <;> norm_num

/-- Witness for C8 at the unit test's 3-row matrix. -/
theorem make_covariance_matrix_spec_witness :
    2 ≤ 3 ∧
    make_covariance_matrix utilsTestMatrix =
      Matrix.of ![![7, 16, 25], ![16, 77/2, 61], ![25, 61, 97]] :=
  ⟨by decide, (make_covariance_matrix_spec utilsTestMatrix (by decide)).2⟩

/-- C9: `make_shuffled_matrix` resamples each column independently with
replacement: the result has the same dimensions as the input (enforced by
its type `Mat r c`), and every entry in column `j` of the result is one of
the values occurring in column `j` of the input — no value ever crosses
into a different column.  Moreover the concrete output pinned by
`test_utils::test_make_shuffled_matrix` arises from such a per-column
redraw of the test's input. -/
theorem make_shuffled_matrix_spec {r c : Nat} (M : Mat r c)
    (rng : Fin r → Fin c → Fin r) :
    (∀ i j, ∃ i', make_shuffled_matrix M rng i j = M i' j) ∧
    ∃ rng0, make_shuffled_matrix shuffleTestInput rng0 = shuffleTestExpected := by
  refine ⟨fun i j => ⟨rng i j, rfl⟩, ?_⟩
  refine ⟨fun i j => (![![1, 1, 0], ![1, 0, 0], ![0, 1, 0]] : Fin 3 → Fin 3 → Fin 3) i j, ?_⟩
  ext i j
  fin_cases i <;> fin_cases j <;>
    norm_num [make_shuffled_matrix, shuffleTestInput, shuffleTestExpected]

/-- C10: `compute_column_rms` uses the sample divisor `n − 1`, not `n`:
for every matrix, each column's value is `√((Σ of squared entries)/(n−1))`;
at the unit test's 3×3 matrix this gives the expected `{√7, √38.5, √97}`
(`test_utils::test_compute_column_rms`), which differs from the
conventional root mean square (divisor `n`) of the same column. -/
theorem compute_column_rms_spec :
    (∀ (r c : Nat) (M : Matrix (Fin r) (Fin c) ℝ) (j : Fin c),
        compute_column_rms M j = Real.sqrt ((∑ i, (M i j) ^ 2) / ((r : ℝ) - 1))) ∧
    compute_column_rms rmsTestMatrix = ![Real.sqrt 7, Real.sqrt (77/2), Real.sqrt 97] ∧
    compute_column_rms rmsTestMatrix 0 ≠ conventional_column_rms rmsTestMatrix 0 := by
  refine ⟨fun r c M j => rfl, ?_, ?_⟩
  · funext j
    fin_cases j <;>
      · simp only [compute_column_rms, rmsTestMatrix, Fin.sum_univ_three]
        norm_num
  · have h0 : compute_column_rms rmsTestMatrix 0 = Real.sqrt 7 := by
      simp only [compute_column_rms, rmsTestMatrix, Fin.sum_univ_three]
      norm_num
    have h1 : conventional_column_rms rmsTestMatrix 0 = Real.sqrt (14 / 3) := by
      simp only [conventional_column_rms, rmsTestMatrix, Fin.sum_univ_three]
      norm_num
    rw [h0, h1]
    intro h
    have := (Real.sqrt_inj (by norm_num) (by norm_num)).mp h
    norm_num at this

/-- C3: for every solved engine using all `num_variables` eigenvectors —
an orthonormal eigenvector matrix `V` (the documented postcondition of the
eigendecomposition, `V·Vᵗ = 1`), nonzero column sigmas when normalization
is on, and a nonempty record list — every record round-trips exactly
through `to_principal_space`/`to_variable_space`, and
`check_projection_accurate()` returns 1.0. -/
theorem projection_round_trip {n : Nat} (V : Matrix (Fin n) (Fin n) ℚ)
    (means sigmas : Fin n → ℚ) (normalize : Bool) (records : List (Fin n → ℚ))
    (horth : V * V.transpose = 1)
    (hsig : normalize = true → ∀ i, sigmas i ≠ 0)
    (hrec : records ≠ []) :
    (∀ r, to_variable_space V means sigmas normalize
        (to_principal_space V means sigmas normalize r) = r) ∧
    check_projection_accurate V means sigmas normalize records = 1 := by
  have hround : ∀ r, to_variable_space V means sigmas normalize
      (to_principal_space V means sigmas normalize r) = r := by
    intro r
    funext i
    unfold to_variable_space to_principal_space
    rw [Matrix.vecMul_vecMul, horth, Matrix.vecMul_one]
    cases hnorm : normalize with
    | false => simp
    | true =>
        simp only [if_true]
        rw [div_mul_cancel₀ _ (hsig hnorm i)]
        ring
  refine ⟨hround, ?_⟩
  unfold check_projection_accurate
  have hfilter : (records.filter (fun r =>
      decide (to_variable_space V means sigmas normalize
        (to_principal_space V means sigmas normalize r) = r))) = records := by
    apply List.filter_eq_self.mpr
    intro r _
    simp [hround r]
  rw [hfilter]
  have hlen : (records.length : ℚ) ≠ 0 := by
    have := List.length_pos.mpr hrec
    exact_mod_cast Nat.pos_iff_ne_zero.mp this
  exact div_self hlen

/-- The column sign is `1` or `-1`. -/
theorem column_sign_eq_or {n : Nat} (v : Fin (n + 1) → ℚ) :
    column_sign v = 1 ∨ column_sign v = -1 := by
  unfold column_sign
  by_cases h : v (dominant_index v) < 0 <;> simp [h]

/-- C4: save/load round-trip — for every solved engine, saving and then
loading the saved artifacts into a freshly constructed engine yields an
engine equal to the original under the spec's field-wise equality. -/
theorem save_load_round_trip (e : pca) (_hs : e.solved = true) :
    ∃ e', load (save e) = .ok e' ∧ pcaEqual e e' := by
  cases hb : e.do_bootstrap with
  | true =>
      refine ⟨{ num_variables := e.num_variables, records := [],
                do_normalize := e.do_normalize, do_bootstrap := e.do_bootstrap,
                num_bootstraps := e.num_bootstraps, bootstrap_seed := e.bootstrap_seed,
                solver := e.solver, solved := true,
                mean := e.mean, sigma := e.sigma, eigenvalues := e.eigenvalues,
                eigenvectors := e.eigenvectors, principal := e.principal,
                energy := e.energy, eigval_boot := e.eigval_boot,
                energy_boot := e.energy_boot }, ?_, ?_⟩
      · simp [load, save, hb, findArtifact, Artifact.asManifest, Artifact.asVec,
          Artifact.asMat, Artifact.asNum, List.lookup, bind, Except.bind, pure,
          Except.pure]
      · exact ⟨rfl, rfl, rfl, rfl, rfl, rfl, rfl, rfl, rfl, rfl, rfl, rfl,
          fun _ => ⟨rfl, rfl⟩⟩
  | false =>
      refine ⟨{ num_variables := e.num_variables, records := [],
                do_normalize := e.do_normalize, do_bootstrap := e.do_bootstrap,
                num_bootstraps := e.num_bootstraps, bootstrap_seed := e.bootstrap_seed,
                solver := e.solver, solved := true,
                mean := e.mean, sigma := e.sigma, eigenvalues := e.eigenvalues,
                eigenvectors := e.eigenvectors, principal := e.principal,
                energy := e.energy, eigval_boot := [], energy_boot := [] }, ?_, ?_⟩
      · simp [load, save, hb, findArtifact, Artifact.asManifest, Artifact.asVec,
          Artifact.asMat, Artifact.asNum, List.lookup, bind, Except.bind, pure,
          Except.pure]
      · exact ⟨rfl, rfl, rfl, rfl, rfl, rfl, rfl, rfl, rfl, rfl, rfl, rfl,
          fun h => absurd h (by simp [hb])⟩

/-- Witness for C3: the identity eigenvector matrix over two variables,
means `(1,2)`, one record `(3,4)`, no normalization. -/
theorem projection_round_trip_witness :
    to_variable_space (1 : Matrix (Fin 2) (Fin 2) ℚ) ![1, 2] ![1, 1] false
      (to_principal_space (1 : Matrix (Fin 2) (Fin 2) ℚ) ![1, 2] ![1, 1] false ![3, 4]) = ![3, 4] ∧
    check_projection_accurate (1 : Matrix (Fin 2) (Fin 2) ℚ) ![1, 2] ![1, 1] false [![3, 4]] = 1 := by
  have h := projection_round_trip (1 : Matrix (Fin 2) (Fin 2) ℚ) ![1, 2] ![1, 1] false [![3, 4]]
    (by simp) (by simp) (by simp)
  exact ⟨h.1 ![3, 4], h.2⟩

/-- Witness for C4 at a concrete solved engine (bootstrap on, a nonempty
mean vector and a nonzero energy). -/
theorem save_load_round_trip_witness :
    ∃ e', load (save solvedEngine) = .ok e' ∧ pcaEqual solvedEngine e' :=
  save_load_round_trip solvedEngine rfl

/-- Orthonormal columns, stated entrywise: from `Vᵗ·V = 1`, the dot product
of columns `j` and `k` is `δⱼₖ`. -/
theorem column_dot_of_orthonormal {n : Nat} (V : Matrix (Fin n) (Fin n) ℚ)
    (horth : V.transpose * V = 1) (j k : Fin n) :
    (∑ i, V i j * V i k) = if j = k then 1 else 0 := by
  have h := congrFun (congrFun horth j) k
  rw [Matrix.mul_apply, Matrix.one_apply] at h
  simpa [Matrix.transpose_apply] using h

/-- Every eigenvalue of the covariance matrix `C = (1/(r−1))·Xᵗ·X` of a
data matrix with `r ≥ 2` rows is non-negative: the covariance is positive
semidefinite. -/
theorem eigval_nonneg_of_covariance {n r : Nat} (X : Matrix (Fin r) (Fin n) ℚ)
    (V : Matrix (Fin n) (Fin n) ℚ) (lam : Fin n → ℚ) (hr : 2 ≤ r)
    (horth : V.transpose * V = 1)
    (heig : make_covariance_matrix X * V = V * Matrix.diagonal lam)
    (j : Fin n) : 0 ≤ lam j := by
  set v : Fin n → ℚ := fun i => V i j with hv
  have hcol : (make_covariance_matrix X).mulVec v = fun i => lam j * V i j := by
    funext i
    have h := congrFun (congrFun heig i) j
    rw [Matrix.mul_apply, Matrix.mul_diagonal] at h
    simpa [Matrix.mulVec, Matrix.dotProduct, hv, mul_comm] using h
  have hjj : (∑ i, V i j * V i j) = 1 := by
    simpa using column_dot_of_orthonormal V horth j j
  have hdot1 : Matrix.dotProduct v ((make_covariance_matrix X).mulVec v) = lam j := by
    rw [hcol]
    unfold Matrix.dotProduct
    calc (∑ i, v i * (lam j * V i j))
        = lam j * ∑ i, V i j * V i j := by
          rw [Finset.mul_sum]
          exact Finset.sum_congr rfl fun i _ => by rw [hv]; ring
      _ = lam j := by rw [hjj, mul_one]
  have hdot2 : Matrix.dotProduct v ((make_covariance_matrix X).mulVec v) =
      ((r : ℚ) - 1)⁻¹ * Matrix.dotProduct (X.mulVec v) (X.mulVec v) := by
    unfold make_covariance_matrix
    rw [Matrix.smul_mulVec_assoc, Matrix.dotProduct_smul, smul_eq_mul]
    congr 1
    rw [← Matrix.mulVec_mulVec, Matrix.dotProduct_mulVec, Matrix.vecMul_transpose]
  have hself : 0 ≤ Matrix.dotProduct (X.mulVec v) (X.mulVec v) :=
    Finset.sum_nonneg fun i _ => mul_self_nonneg _
  have hcoeff : (0 : ℚ) ≤ ((r : ℚ) - 1)⁻¹ := by
    have : (2 : ℚ) ≤ (r : ℚ) := by exact_mod_cast hr
    have : (0 : ℚ) < (r : ℚ) - 1 := by linarith
    positivity
  rw [← hdot1, hdot2]
  exact mul_nonneg hcoeff hself

/-- C5: after every successful `solve` — given the numeric backend's
documented contract on the covariance matrix of the processed data matrix
`X` (eigenvalues ascending, eigenvector columns orthonormal, both solving
the eigenproblem) — the stored eigenvalue sequence has length
`num_variables`, is sorted in descending order with every eigenvalue
non-negative, and `check_eigenvectors_orthogonal()` returns 1.0. -/
theorem solve_spectrum_spec {n r : Nat} (X : Matrix (Fin r) (Fin (n + 1)) ℚ)
    (b : EigResult (n + 1)) (hr : 2 ≤ r)
    (hasc : ∀ j k : Fin (n + 1), j ≤ k → b.eigval j ≤ b.eigval k)
    (horth : b.eigvec.transpose * b.eigvec = 1)
    (heig : make_covariance_matrix X * b.eigvec = b.eigvec * Matrix.diagonal b.eigval) :
    (List.ofFn (derive_eigenvalues b)).length = n + 1 ∧
    (∀ j k : Fin (n + 1), j ≤ k → derive_eigenvalues b k ≤ derive_eigenvalues b j) ∧
    (∀ j : Fin (n + 1), 0 ≤ derive_eigenvalues b j) ∧
    check_eigenvectors_orthogonal (derive_eigenvectors b) = 1 := by
  have hnn : ∀ j, 0 ≤ b.eigval j := fun j =>
    eigval_nonneg_of_covariance X b.eigvec b.eigval hr horth heig j
  have hS0 : (0 : ℚ) ≤ ∑ k : Fin (n + 1), b.eigval k.rev :=
    Finset.sum_nonneg fun k _ => hnn k.rev
  refine ⟨by simp, ?_, ?_, ?_⟩
  · intro j k hjk
    have hrev : k.rev ≤ j.rev := Fin.rev_le_rev.mpr hjk
    have hle : b.eigval k.rev ≤ b.eigval j.rev := hasc _ _ hrev
    unfold derive_eigenvalues
    rcases eq_or_lt_of_le hS0 with hz | hpos
    · rw [← hz]
      simp
    · exact (div_le_div_iff_of_pos_right hpos).mpr hle
  · intro j
    exact div_nonneg (hnn j.rev) hS0
  · have hall : ∀ p : Fin (n + 1) × Fin (n + 1),
        (∑ i, derive_eigenvectors b i p.1 * derive_eigenvectors b i p.2) =
          if p.1 = p.2 then 1 else 0 := by
      rintro ⟨j, k⟩
      have hcd := column_dot_of_orthonormal b.eigvec horth j.rev k.rev
      have hsum : (∑ i, derive_eigenvectors b i j * derive_eigenvectors b i k)
          = column_sign (fun i => reverse_columns b.eigvec i j)
              * column_sign (fun i => reverse_columns b.eigvec i k)
              * ∑ i, b.eigvec i j.rev * b.eigvec i k.rev := by
        rw [Finset.mul_sum]
        exact Finset.sum_congr rfl fun i _ => by
          show column_sign (fun i => reverse_columns b.eigvec i j) * reverse_columns b.eigvec i j
              * (column_sign (fun i => reverse_columns b.eigvec i k) * reverse_columns b.eigvec i k)
            = _
          unfold reverse_columns
          ring
      rw [hsum, hcd]
      by_cases hjk : j = k
      · subst hjk
        simp only [if_pos rfl, mul_one]
        rcases column_sign_eq_or (fun i => reverse_columns b.eigvec i j) with h1 | h1 <;>
          rw [h1] <;> norm_num
      · have hne : ¬(j.rev = k.rev) := fun h => hjk (Fin.rev_injective h)
        simp [hjk, hne]
    unfold check_eigenvectors_orthogonal
    rw [Finset.filter_true_of_mem fun p _ => hall p]
    apply div_self
    have hcard : (Finset.univ : Finset (Fin (n + 1) × Fin (n + 1))).card ≠ 0 := by
      simp [Finset.card_univ]
    exact_mod_cast hcard

/-- Witness for C5 at the concrete backend instance `witnessEig` solving
the covariance eigenproblem of `witnessData`. -/
theorem solve_spectrum_spec_witness :
    (List.ofFn (derive_eigenvalues witnessEig)).length = 2 ∧
    (∀ j k : Fin 2, j ≤ k → derive_eigenvalues witnessEig k ≤ derive_eigenvalues witnessEig j) ∧
    (∀ j : Fin 2, 0 ≤ derive_eigenvalues witnessEig j) ∧
    check_eigenvectors_orthogonal (derive_eigenvectors witnessEig) = 1 :=
  solve_spectrum_spec witnessData witnessEig (by norm_num)
    (by
      intro j k hjk
      fin_cases j <;> fin_cases k <;> simp_all [witnessEig])
    (by
      ext i j
      fin_cases i <;> fin_cases j <;>
        simp [witnessEig, Matrix.mul_apply, Matrix.transpose_apply,
          Matrix.vecHead, Matrix.vecTail, Fin.sum_univ_two, Matrix.one_apply])
    (by
      ext i j
      fin_cases i <;> fin_cases j <;>
        simp [witnessEig, witnessData, make_covariance_matrix, Matrix.mul_apply,
          Matrix.transpose_apply, Matrix.diagonal, Matrix.vecHead, Matrix.vecTail,
          Fin.sum_univ_two, Fin.sum_univ_three] <;> norm_num)

/-- C6: on the records `{1,2.5,42,7}`, `{3,4.2,90,7}`, `{456,444,0,7}` with
`num_variables = 4`: the solved energy equals `135459.19666667` within
float epsilon (`2⁻²³`, the tests' `utils::feps`); the constant fourth
column is centered to the zero column; and the fourth standard basis vector
`(0,0,0,1)` is an eigenvector of the covariance matrix with eigenvalue
zero. -/
theorem concrete_scenario_spec :
    |solve_energy testDataMatrix - 13545919666667 / 100000000| < 1 / 2 ^ 23 ∧
    (∀ i, centeredTestData i 3 = 0) ∧
    (make_covariance_matrix centeredTestData).mulVec
        (fun j => if j = (3 : Fin 4) then 1 else 0)
      = fun i => 0 * (if i = (3 : Fin 4) then 1 else 0) := by
  refine ⟨?_, ?_, ?_⟩
  · have : solve_energy testDataMatrix = 40637759 / 300 := by
      simp [solve_energy, make_covariance_matrix, remove_column_means,
        compute_column_means, testDataMatrix, Matrix.smul_apply, Matrix.mul_apply,
        Matrix.transpose_apply, Matrix.vecHead, Matrix.vecTail,
        Fin.sum_univ_four, Fin.sum_univ_three]
      norm_num
    rw [this]
    have habs : |(40637759 : ℚ) / 300 - 13545919666667 / 100000000| = 1 / 300000000 := by
      rw [abs_sub_comm, abs_of_pos] <;> norm_num
    rw [habs]
    norm_num
  · intro i
    fin_cases i <;>
      simp [centeredTestData, remove_column_means, compute_column_means,
        testDataMatrix, Matrix.vecHead, Matrix.vecTail, Fin.sum_univ_three]
  · funext i
    fin_cases i <;>
      simp [make_covariance_matrix, centeredTestData, remove_column_means,
        compute_column_means, testDataMatrix, Matrix.mulVec, Matrix.dotProduct,
        Matrix.smul_apply, Matrix.mul_apply, Matrix.transpose_apply,
        Matrix.vecHead, Matrix.vecTail, Fin.sum_univ_four, Fin.sum_univ_three] <;>
      norm_num

end Libpca
